import Mathlib

/-!
Verification of the ft-images-mixer backend core (fourier_mixer.py,
image_processor.py, backend_api.py) against its natural-language
specification.  The Python code is shallowly embedded: numpy arrays become
index functions with explicit row/column counts, Python floats become exact
rationals or reals, raised exceptions become `Except` errors, and mutable
objects become explicit state records.
-/

namespace FtMixer

/-- Mixing mode of the mixer (`self.mode`): `'magnitude_phase'` or
`'real_imaginary'`. -/
inductive MixMode where
  | magnitude_phase
  | real_imaginary
deriving DecidableEq

/-- The four FFT component kinds used as keys of `self.weights` and
`self.per_component_region`. -/
inductive Component where
  | magnitude
  | phase
  | real
  | imaginary
deriving DecidableEq

/-- Region type: `'inner'` or `'outer'`. -/
inductive RegionType where
  | inner
  | outer
deriving DecidableEq

/-- Python `int()` applied to a (rational-modelled) float: truncation toward
zero. -/
def pyInt (q : ℚ) : ℤ := if 0 ≤ q then ⌊q⌋ else ⌈q⌉

/-- A computed 2-D complex spectrum together with its shape
(`processor.fft_result` as consumed by the mixer). -/
structure ProcSpec where
  rows : ℕ
  cols : ℕ
  F : ℕ → ℕ → ℂ

/-- State of a `FourierMixer` instance.  `processors` holds, per slot, the
slot's `fft_result` (`none` when not computed).  `region_type` models the
dynamically-typed attribute `self.region_type`: `none` means the attribute
was never assigned, so reading it raises `AttributeError`. -/
structure FourierMixer where
  processors : List (Option ProcSpec)
  num_processors : ℕ
  mode : MixMode
  weights : Component → List ℚ
  region_enabled : Bool
  region_size : ℚ
  region_x : ℚ
  region_y : ℚ
  region_width : ℚ
  region_height : ℚ
  per_component_region : Component → RegionType
  target_output_port : ℕ
  progress : ℕ
  is_cancelled : Bool
  is_processing : Bool
  region_type : Option RegionType

/-- Python-level errors raised by the embedded methods. -/
inductive PyError where
  | valueError
  | attributeError
deriving DecidableEq

/-- The field values assigned by `FourierMixer.__init__` for a given
processor list. -/
def baseMixer (procs : List (Option ProcSpec)) : FourierMixer :=
  { processors := procs
    num_processors := procs.length
    mode := .magnitude_phase
    weights := fun _ => List.replicate procs.length 0
    region_enabled := false
    region_size := 3/10
    region_x := 1/2
    region_y := 1/2
    region_width := 3/10
    region_height := 3/10
    per_component_region := fun _ => .inner
    target_output_port := 1
    progress := 0
    is_cancelled := false
    is_processing := false
    region_type := none }

/-- `FourierMixer.__init__`: requires between 1 and 4 processors
(`_validate_uniform_sizes` is a silent no-op in the source and is therefore
not modelled as a check).  Note that `self.region_type` is never assigned. -/
def mkFourierMixer (procs : List (Option ProcSpec)) : Except PyError FourierMixer :=
  if procs.length = 0 ∨ 4 < procs.length then .error .valueError
  else .ok (baseMixer procs)

/-- `create_frequency_mask(shape, region_type)`, pointwise at index `(i, j)`.
numpy's slice assignment `mask[row_start:row_end, col_start:col_end]` is
rendered as a membership test of `(i, j)` in the half-open rectangle.
Python `int()` is truncation (`pyInt`) and `//` on the positive
`region_rows`/`region_cols` is ordinary division. -/
def create_frequency_mask (s : FourierMixer) (rows cols : ℕ) (rt : RegionType)
    (i j : ℕ) : ℚ :=
  if s.region_enabled = false then 1
  else
    let region_rows : ℤ := max 1 (pyInt ((rows : ℚ) * s.region_height))
    let region_cols : ℤ := max 1 (pyInt ((cols : ℚ) * s.region_width))
    let center_row : ℤ := pyInt ((rows : ℚ) * s.region_y)
    let center_col : ℤ := pyInt ((cols : ℚ) * s.region_x)
    let row_start : ℤ := max 0 (center_row - region_rows / 2)
    let row_end : ℤ := min (rows : ℤ) (center_row + region_rows / 2)
    let col_start : ℤ := max 0 (center_col - region_cols / 2)
    let col_end : ℤ := min (cols : ℤ) (center_col + region_cols / 2)
    if row_start ≤ (i : ℤ) ∧ (i : ℤ) < row_end ∧ col_start ≤ (j : ℤ) ∧ (j : ℤ) < col_end then
      (if rt = RegionType.inner then 1 else 0)
    else
      (if rt = RegionType.inner then 0 else 1)

/-- Modelled from the claim's words with `round`: extents
`max 1 (round (dim * frac))`, center `(round (rows * y), round (cols * x))`,
rectangle `[cr - rows_r/2, cr + rows_r/2) × [cc - cols_r/2, cc + cols_r/2)`,
1 inside for `inner` and the complement for `outer`. -/
def claimMaskRound (enabled : Bool) (x y width height : ℚ) (rt : RegionType)
    (rows cols i j : ℕ) : ℚ :=
  if enabled = false then 1
  else
    let rows_r : ℤ := max 1 (round ((rows : ℚ) * height))
    let cols_r : ℤ := max 1 (round ((cols : ℚ) * width))
    let cr : ℤ := round ((rows : ℚ) * y)
    let cc : ℤ := round ((cols : ℚ) * x)
    if cr - rows_r / 2 ≤ (i : ℤ) ∧ (i : ℤ) < cr + rows_r / 2 ∧
        cc - cols_r / 2 ≤ (j : ℤ) ∧ (j : ℤ) < cc + cols_r / 2 then
      (if rt = RegionType.inner then 1 else 0)
    else
      (if rt = RegionType.inner then 0 else 1)

/-- The claim amended to match the source: same rectangle construction but
with truncation (Python `int()`, equal to `floor` on the non-negative values
involved) in place of `round`.  The rectangle here is the unclamped one; for
in-bounds indices it coincides with the source's clamped slice. -/
def claimMaskTrunc (enabled : Bool) (x y width height : ℚ) (rt : RegionType)
    (rows cols i j : ℕ) : ℚ :=
  if enabled = false then 1
  else
    let rows_r : ℤ := max 1 (pyInt ((rows : ℚ) * height))
    let cols_r : ℤ := max 1 (pyInt ((cols : ℚ) * width))
    let cr : ℤ := pyInt ((rows : ℚ) * y)
    let cc : ℤ := pyInt ((cols : ℚ) * x)
    if cr - rows_r / 2 ≤ (i : ℤ) ∧ (i : ℤ) < cr + rows_r / 2 ∧
        cc - cols_r / 2 ≤ (j : ℤ) ∧ (j : ℤ) < cc + cols_r / 2 then
      (if rt = RegionType.inner then 1 else 0)
    else
      (if rt = RegionType.inner then 0 else 1)

/-- A concrete mixer state used to separate the source mask from the
claim's rounded formula: 2×2 shape, width = height = 0.9, centered. -/
def maskCexMixer : FourierMixer :=
  { processors := [some ⟨2, 2, fun _ _ => 0⟩]
    num_processors := 1
    mode := .magnitude_phase
    weights := fun _ => [0]
    region_enabled := true
    region_size := 9/10
    region_x := 1/2
    region_y := 1/2
    region_width := 9/10
    region_height := 9/10
    per_component_region := fun _ => .inner
    target_output_port := 1
    progress := 0
    is_cancelled := false
    is_processing := false
    region_type := none }

/-- `np.allclose(a, b)` on equal-length 1-D arrays with numpy's default
tolerances `rtol = 1e-5`, `atol = 1e-8`: element-wise
`|a - b| <= atol + rtol * |b|`. -/
def allclose : List ℚ → List ℚ → Bool
  | [], [] => true
  | a :: la, b :: lb =>
      decide (|a - b| ≤ 1 / 100000000 + |b| / 100000) && allclose la lb
  | _, _ => false

/-- The accumulation loop `mixed_fft += w[i] * processor.fft_result` over
`enumerate(self.processors)`, skipping empty slots and non-positive weights,
taken pointwise at `(k, l)`. -/
noncomputable def weightedSpecSum : List ℚ → List (Option ProcSpec) → ℕ → ℕ → ℂ
  | w :: ws, some p :: ps, k, l =>
      (if 0 < w then (w : ℂ) * p.F k l else 0) + weightedSpecSum ws ps k l
  | _ :: ws, none :: ps, k, l => weightedSpecSum ws ps k l
  | _, _, _, _ => 0

/-- The accumulation loop `mixed += w[i] * proj(processor.fft_result)` for a
real-valued projection `proj` (`np.abs`, `np.angle`, `np.real`, `np.imag`),
pointwise at `(k, l)`. -/
noncomputable def weightedProjSum (proj : ℂ → ℝ) : List ℚ → List (Option ProcSpec) → ℕ → ℕ → ℝ
  | w :: ws, some p :: ps, k, l =>
      (if 0 < w then (w : ℝ) * proj (p.F k l) else 0) + weightedProjSum proj ws ps k l
  | _ :: ws, none :: ps, k, l => weightedProjSum proj ws ps k l
  | _, _, _, _ => 0

/-- The equal-weight shortcut branch of `_mix_magnitude_phase`: direct
weighted sum of the raw complex spectra, then `apply_frequency_mask`, which
uses the magnitude component's region type. -/
noncomputable def mixMagPhaseShortcut (s : FourierMixer) (rows cols : ℕ) :
    ℕ → ℕ → ℂ :=
  fun k l =>
    weightedSpecSum (s.weights .magnitude) s.processors k l *
      ((create_frequency_mask s rows cols (s.per_component_region .magnitude) k l : ℚ) : ℂ)

/-- The general branch of `_mix_magnitude_phase`: magnitudes and phases are
mixed separately, each masked with its own per-component region type, and the
spectrum is rebuilt as `M * exp(1j * P)`. -/
noncomputable def mixMagPhaseGeneral (s : FourierMixer) (rows cols : ℕ) :
    ℕ → ℕ → ℂ :=
  fun k l =>
    let mmag : ℝ :=
      weightedProjSum (fun z => Complex.abs z) (s.weights .magnitude) s.processors k l *
        ((create_frequency_mask s rows cols (s.per_component_region .magnitude) k l : ℚ) : ℝ)
    let mph : ℝ :=
      weightedProjSum (fun z => Complex.arg z) (s.weights .phase) s.processors k l *
        ((create_frequency_mask s rows cols (s.per_component_region .phase) k l : ℚ) : ℝ)
    (mmag : ℂ) * Complex.exp (Complex.I * (mph : ℂ))

/-- `_mix_magnitude_phase`: branch on `np.allclose(mag_weights, phase_weights)`. -/
noncomputable def mix_magnitude_phase (s : FourierMixer) (rows cols : ℕ) :
    ℕ → ℕ → ℂ :=
  if allclose (s.weights .magnitude) (s.weights .phase) then
    mixMagPhaseShortcut s rows cols
  else
    mixMagPhaseGeneral s rows cols

/-- `_mix_real_imaginary`: real and imaginary parts mixed separately, masked
per component, and rebuilt as `R + 1j * I`. -/
noncomputable def mix_real_imaginary (s : FourierMixer) (rows cols : ℕ) :
    ℕ → ℕ → ℂ :=
  fun k l =>
    let mre : ℝ :=
      weightedProjSum (fun z => z.re) (s.weights .real) s.processors k l *
        ((create_frequency_mask s rows cols (s.per_component_region .real) k l : ℚ) : ℝ)
    let mim : ℝ :=
      weightedProjSum (fun z => z.im) (s.weights .imaginary) s.processors k l *
        ((create_frequency_mask s rows cols (s.per_component_region .imaginary) k l : ℚ) : ℝ)
    (mre : ℂ) + Complex.I * (mim : ℂ)

/-- Errors raised by `mix_components`. -/
inductive MixError where
  | noImages
deriving DecidableEq

/-- `mix_components`: find the active (fft-computed) processors, raise if
there are none, return an all-zero complex spectrum of the common shape if
the sum of the mode's weights is zero, otherwise dispatch on the mode. -/
noncomputable def mix_components (s : FourierMixer) : Except MixError ProcSpec :=
  match (s.processors.filterMap id).head? with
  | none => .error .noImages
  | some p =>
      let all_weights :=
        if s.mode = MixMode.magnitude_phase then
          s.weights .magnitude ++ s.weights .phase
        else
          s.weights .real ++ s.weights .imaginary
      if all_weights.sum = 0 then .ok ⟨p.rows, p.cols, fun _ _ => 0⟩
      else if s.mode = MixMode.magnitude_phase then
        .ok ⟨p.rows, p.cols, mix_magnitude_phase s p.rows p.cols⟩
      else
        .ok ⟨p.rows, p.cols, mix_real_imaginary s p.rows p.cols⟩

/-- `set_mode` (the mode string is typed, so the membership check cannot
fail). -/
def set_mode (s : FourierMixer) (m : MixMode) : FourierMixer :=
  { s with mode := m }

/-- `set_weights`: reject a vector whose length differs from the number of
processors, reject negative entries, else store the vector. -/
def set_weights (s : FourierMixer) (c : Component) (ws : List ℚ) :
    Except PyError FourierMixer :=
  if ws.length ≠ s.num_processors then .error .valueError
  else if ws.any (fun w => decide (w < 0)) then .error .valueError
  else .ok { s with weights := Function.update s.weights c ws }

/-- First block of `set_region`: the width/height pair (validated to
`[0,1]`) takes precedence, else the legacy `size`, else nothing changes. -/
def setRegionDims (s : FourierMixer) (size width height : Option ℚ) :
    Except PyError FourierMixer :=
  match width, height with
  | some w, some h =>
      if 0 ≤ w ∧ w ≤ 1 ∧ 0 ≤ h ∧ h ≤ 1 then
        .ok { s with region_width := w, region_height := h,
                     region_size := (w + h) / 2 }
      else .error .valueError
  | _, _ =>
      match size with
      | some sz =>
          if 0 ≤ sz ∧ sz ≤ 1 then
            .ok { s with region_size := sz, region_width := sz,
                         region_height := sz }
          else .error .valueError
      | none => .ok s

/-- Position-x block of `set_region`. -/
def setRegionX (s : FourierMixer) (x : Option ℚ) : Except PyError FourierMixer :=
  match x with
  | some xv =>
      if 0 ≤ xv ∧ xv ≤ 1 then .ok { s with region_x := xv }
      else .error .valueError
  | none => .ok s

/-- Position-y block of `set_region`. -/
def setRegionY (s : FourierMixer) (y : Option ℚ) : Except PyError FourierMixer :=
  match y with
  | some yv =>
      if 0 ≤ yv ∧ yv ≤ 1 then .ok { s with region_y := yv }
      else .error .valueError
  | none => .ok s

/-- `set_region`: optional width/height pair takes precedence over the legacy
`size`; position updates are validated to `[0,1]`; `region_type` may be a
single type or a per-component map (here a partial map, `none` meaning the
key is absent so the stored type is kept); finally the enabled flag is set.
Note: the attribute `self.region_type` is not assigned. -/
def set_region (s : FourierMixer) (size : Option ℚ)
    (rtArg : Component → Option RegionType) (enabled : Bool)
    (x y width height : Option ℚ) : Except PyError FourierMixer :=
  (setRegionDims s size width height).bind fun s1 =>
  (setRegionX s1 x).bind fun s2 =>
  (setRegionY s2 y).bind fun s3 =>
  Except.ok { s3 with
    per_component_region := fun c => (rtArg c).getD (s3.per_component_region c),
    region_enabled := enabled }

/-- `set_region_from_coordinates`: compute a size percentage from pixel
coordinates using the first active processor's shape, clip it to `[0,1]`,
and delegate to `set_region` with `enabled=True`. -/
def set_region_from_coordinates (s : FourierMixer) (x1 y1 x2 y2 : ℚ)
    (rt : RegionType) : Except PyError FourierMixer :=
  match (s.processors.filterMap id).head? with
  | none => .ok s
  | some p =>
      let width_percentage : ℚ := |x2 - x1| / (p.cols : ℚ)
      let height_percentage : ℚ := |y2 - y1| / (p.rows : ℚ)
      let size := (width_percentage + height_percentage) / 2
      set_region s (some (min 1 (max 0 size))) (fun _ => some rt) true
        none none none none

/-- `set_output_port`: only ports 1 and 2 are accepted. -/
def set_output_port (s : FourierMixer) (port : ℕ) : Except PyError FourierMixer :=
  if port = 1 ∨ port = 2 then .ok { s with target_output_port := port }
  else .error .valueError

/-- `cancel_operation`: set the cancellation flag only while processing. -/
def cancel_operation (s : FourierMixer) : FourierMixer :=
  if s.is_processing then { s with is_cancelled := true } else s

/-- The dictionary returned by `get_region_rectangle_bounds`. -/
structure RegionBounds where
  x1 : ℤ
  y1 : ℤ
  x2 : ℤ
  y2 : ℤ
  width : ℤ
  height : ℤ
  enabled : Bool
  type : RegionType

/-- `get_region_rectangle_bounds`: `None` when no processor has a computed
spectrum; otherwise the bounds dictionary is built, whose `'type'` entry
reads `self.region_type` — an attribute that raises `AttributeError` when it
was never assigned (modelled by the `Option` field being `none`). -/
def get_region_rectangle_bounds (s : FourierMixer) :
    Except PyError (Option RegionBounds) :=
  match (s.processors.filterMap id).head? with
  | none => .ok none
  | some p =>
      let center_row : ℤ := (p.rows : ℤ) / 2
      let center_col : ℤ := (p.cols : ℤ) / 2
      let region_rows : ℤ := pyInt ((p.rows : ℚ) * s.region_size)
      let region_cols : ℤ := pyInt ((p.cols : ℚ) * s.region_size)
      match s.region_type with
      | none => .error .attributeError
      | some rt =>
          .ok (some
            { x1 := center_col - region_cols / 2
              y1 := center_row - region_rows / 2
              x2 := center_col + region_cols / 2
              y2 := center_row + region_rows / 2
              width := region_cols
              height := region_rows
              enabled := s.region_enabled
              type := rt })

/-- States of a `FourierMixer` reachable through the constructor and the
state-mutating public methods. -/
inductive Reachable : FourierMixer → Prop where
  | init (procs : List (Option ProcSpec)) (s : FourierMixer) :
      mkFourierMixer procs = .ok s → Reachable s
  | mode (s : FourierMixer) (m : MixMode) :
      Reachable s → Reachable (set_mode s m)
  | setw (s s' : FourierMixer) (c : Component) (ws : List ℚ) :
      Reachable s → set_weights s c ws = .ok s' → Reachable s'
  | region (s s' : FourierMixer) (size : Option ℚ)
      (rtArg : Component → Option RegionType) (enabled : Bool)
      (x y width height : Option ℚ) :
      Reachable s → set_region s size rtArg enabled x y width height = .ok s' →
      Reachable s'
  | regionCoords (s s' : FourierMixer) (x1 y1 x2 y2 : ℚ) (rt : RegionType) :
      Reachable s → set_region_from_coordinates s x1 y1 x2 y2 rt = .ok s' →
      Reachable s'
  | outputPort (s s' : FourierMixer) (port : ℕ) :
      Reachable s → set_output_port s port = .ok s' → Reachable s'
  | cancel (s : FourierMixer) :
      Reachable s → Reachable (cancel_operation s)

/-- 2-D discrete Fourier transform (`np.fft.fft2`) of an `m × n` array. -/
noncomputable def dft2 (m n : ℕ) (x : ℕ → ℕ → ℂ) : ℕ → ℕ → ℂ :=
  fun k l => ∑ p ∈ Finset.range m, ∑ q ∈ Finset.range n,
    x p q * Complex.exp (-2 * Real.pi * Complex.I *
      ((k : ℂ) * p / m + (l : ℂ) * q / n))

/-- 2-D inverse discrete Fourier transform (`np.fft.ifft2`). -/
noncomputable def idft2 (m n : ℕ) (x : ℕ → ℕ → ℂ) : ℕ → ℕ → ℂ :=
  fun p q => (1 / ((m : ℂ) * (n : ℂ))) * ∑ k ∈ Finset.range m, ∑ l ∈ Finset.range n,
    x k l * Complex.exp (2 * Real.pi * Complex.I *
      ((p : ℂ) * k / m + (q : ℂ) * l / n))

/-- `np.fft.fftshift` on a 2-D array: roll each axis by `dim // 2`, so
`out[i][j] = in[(i - m//2) mod m][(j - n//2) mod n]`. -/
def fftshift2 (m n : ℕ) (x : ℕ → ℕ → ℂ) : ℕ → ℕ → ℂ :=
  fun i j => x ((i + m - m / 2) % m) ((j + n - n / 2) % n)

/-- `np.fft.ifftshift` on a 2-D array: roll each axis by `-(dim // 2)`, so
`out[i][j] = in[(i + m//2) mod m][(j + n//2) mod n]`. -/
def ifftshift2 (m n : ℕ) (x : ℕ → ℕ → ℂ) : ℕ → ℕ → ℂ :=
  fun i j => x ((i + m / 2) % m) ((j + n / 2) % n)

/-- Minimum entry of an `m × n` real array (`arr.min()`); 0 for a degenerate
empty shape (numpy would raise there). -/
noncomputable def gridMin (m n : ℕ) (y : ℕ → ℕ → ℝ) : ℝ :=
  if h : (Finset.range m ×ˢ Finset.range n).Nonempty then
    (Finset.range m ×ˢ Finset.range n).inf' h fun p => y p.1 p.2
  else 0

/-- Maximum entry of an `m × n` real array (`arr.max()`); 0 for a degenerate
empty shape. -/
noncomputable def gridMax (m n : ℕ) (y : ℕ → ℕ → ℝ) : ℝ :=
  if h : (Finset.range m ×ˢ Finset.range n).Nonempty then
    (Finset.range m ×ˢ Finset.range n).sup' h fun p => y p.1 p.2
  else 0

/-- The normalization step of `compute_ifft`: subtract the minimum, then
scale by `255 / max` when the maximum of the shifted array is positive. -/
noncomputable def normalizeOutput (m n : ℕ) (y : ℕ → ℕ → ℝ) : ℕ → ℕ → ℝ :=
  let y1 := fun k l => y k l - gridMin m n y
  if 0 < gridMax m n y1 then fun k l => y1 k l / gridMax m n y1 * 255 else y1

/-- The inverse transform pipeline of `compute_ifft` applied to a mixed
spectrum: undo the centering shift (`ifftshift`), apply the inverse 2-D DFT
(`ifft2`), take the real part, and normalize to `[0, 255]`. -/
noncomputable def reconstructPipeline (m n : ℕ) (F : ℕ → ℕ → ℂ) : ℕ → ℕ → ℝ :=
  normalizeOutput m n fun p q => (idft2 m n (ifftshift2 m n F) p q).re

/-- A real-valued output array with its shape. -/
structure RMat where
  rows : ℕ
  cols : ℕ
  f : ℕ → ℕ → ℝ

/-- Outcome of one `compute_ifft` run: a returned output image, `None` after
a cancellation checkpoint fired, or a propagated exception. -/
inductive RunOutcome where
  | completed (out : RMat)
  | cancelledRun
  | raised (e : MixError)

/-- One `compute_ifft(report_progress=True)` run: the sequence of values
written to `self.progress`, in order, and the outcome. -/
structure RunResult where
  trace : List ℕ
  outcome : RunOutcome

/-- `compute_ifft(mixed_fft=None, report_progress=True)` as a trace of
progress writes.  `c1` and `c2` are the values of `self.is_cancelled`
observed at the two cancellation checkpoints (set asynchronously by
`cancel_operation`).  Progress is set to 0, then 10 before mixing; after the
first checkpoint to 50 (un-shift) and 70 (inverse transform); after the
second checkpoint to 90 (real part and normalization) and finally 100. -/
noncomputable def computeIfftRun (s : FourierMixer) (c1 c2 : Bool) : RunResult :=
  match mix_components s with
  | .error e => ⟨[0, 10], .raised e⟩
  | .ok mixed =>
      if c1 then ⟨[0, 10], .cancelledRun⟩
      else if c2 then ⟨[0, 10, 50, 70], .cancelledRun⟩
      else ⟨[0, 10, 50, 70, 90, 100],
        .completed ⟨mixed.rows, mixed.cols,
          reconstructPipeline mixed.rows mixed.cols mixed.F⟩⟩

/-- A grayscale (2-D) or colored (3-D, `channels` per pixel) image array. -/
inductive PImage where
  | gray (rows cols : ℕ) (f : ℕ → ℕ → ℚ)
  | rgb (rows cols channels : ℕ) (f : ℕ → ℕ → ℕ → ℚ)

/-- A complex array of dimension 2 or 3 (`fft_result`). -/
inductive CArr where
  | a2 (rows cols : ℕ) (f : ℕ → ℕ → ℂ)
  | a3 (rows cols channels : ℕ) (f : ℕ → ℕ → ℕ → ℂ)

/-- `arr.shape` of a complex array. -/
def CArr.shape : CArr → List ℕ
  | .a2 m n _ => [m, n]
  | .a3 m n c _ => [m, n, c]

/-- A real array of dimension 2 or 3 (component projections). -/
inductive RArr where
  | a2 (rows cols : ℕ) (f : ℕ → ℕ → ℝ)
  | a3 (rows cols channels : ℕ) (f : ℕ → ℕ → ℕ → ℝ)

/-- `np.abs` applied elementwise to a complex array. -/
noncomputable def CArr.cabs : CArr → RArr
  | .a2 m n f => .a2 m n fun i j => Complex.abs (f i j)
  | .a3 m n c f => .a3 m n c fun i j d => Complex.abs (f i j d)

/-- `np.fft.fft2` over the last two axes of a 3-D array (numpy's behavior on
a color image), at fixed leading index `i`. -/
noncomputable def dft2Last (n c : ℕ) (x : ℕ → ℕ → ℕ → ℂ) : ℕ → ℕ → ℕ → ℂ :=
  fun i k l => ∑ j ∈ Finset.range n, ∑ d ∈ Finset.range c,
    x i j d * Complex.exp (-2 * Real.pi * Complex.I *
      ((k : ℂ) * j / n + (l : ℂ) * d / c))

/-- `np.fft.fftshift` with no axis argument on a 3-D array rolls every axis
by `dim // 2`. -/
def fftshift3 (m n c : ℕ) (x : ℕ → ℕ → ℕ → ℂ) : ℕ → ℕ → ℕ → ℂ :=
  fun i j d => x ((i + m - m / 2) % m) ((j + n - n / 2) % n) ((d + c - c / 2) % c)

/-- `np.fft.fftshift(np.fft.fft2(image))` as used in `compute_fft`. -/
noncomputable def npFFT : PImage → CArr
  | .gray m n f => .a2 m n (fftshift2 m n (dft2 m n fun i j => ((f i j : ℚ) : ℂ)))
  | .rgb m n c f =>
      .a3 m n c (fftshift3 m n c (dft2Last n c fun i j d => ((f i j d : ℚ) : ℂ)))

/-- `x * contrast + brightness` followed by `np.clip(·, 0, 255)`. -/
def PImage.adjust : PImage → ℚ → ℚ → PImage
  | .gray m n f, b, c => .gray m n fun i j => min 255 (max 0 (f i j * c + b))
  | .rgb m n ch f, b, c => .rgb m n ch fun i j d => min 255 (max 0 (f i j d * c + b))

/-- State of an `ImageProcessor` instance (the `image_path` string is
omitted as irrelevant to the claims). -/
structure ImageProcessor where
  image : Option PImage
  color_image : Option PImage
  fft_result : Option CArr
  original_image : Option PImage
  fft_cached : Bool

/-- `ImageProcessor.__init__`. -/
def initImageProcessor : ImageProcessor :=
  { image := none, color_image := none, fft_result := none,
    original_image := none, fft_cached := false }

/-- `load_image`: store the decoded image (file decoding is external
collaborator work, so the decoded array is the argument), copy it to
`color_image` and `original_image`, and set `fft_cached = False`.
The source does not clear `fft_result` here. -/
def load_image (s : ImageProcessor) (img : PImage) : ImageProcessor :=
  { s with image := some img, color_image := some img,
           original_image := some img, fft_cached := false }

/-- `convert_to_grayscale`: luminosity method `0.299 R + 0.587 G + 0.114 B`
on a 3-channel image, clearing both the cache flag and the stored spectrum;
a no-op on an already-grayscale image. -/
def convert_to_grayscale (s : ImageProcessor) : Except PyError ImageProcessor :=
  match s.image with
  | none => .error .valueError
  | some (.rgb m n c f) =>
      if 3 ≤ c then
        .ok { s with
          image := some (.gray m n fun i j =>
            f i j 0 * (299 / 1000) + f i j 1 * (587 / 1000) + f i j 2 * (114 / 1000))
          fft_cached := false
          fft_result := none }
      else .ok s
  | some (.gray _ _ _) => .ok s

/-- `resize_image`: the uint8 renormalization and PIL's Lanczos resampling
are external library behavior, abstracted as the `resample` argument; the
method stores the resampled image and clears both the cache flag and the
stored spectrum. -/
def resize_image (resample : PImage → ℕ × ℕ → PImage) (s : ImageProcessor)
    (target : ℕ × ℕ) : Except PyError ImageProcessor :=
  match s.image with
  | none => .error .valueError
  | some img =>
      .ok { s with image := some (resample img target),
                   fft_cached := false, fft_result := none }

/-- `compute_fft(force)`: raise when no image; return the cached spectrum
when `fft_cached and not force and fft_result is not None`; otherwise
recompute `fftshift(fft2(image))`, cache it, and return it together with the
updated state. -/
noncomputable def compute_fft (s : ImageProcessor) (force : Bool) :
    Except PyError (CArr × ImageProcessor) :=
  match s.image with
  | none => .error .valueError
  | some img =>
      match s.fft_cached && !force, s.fft_result with
      | true, some spec => .ok (spec, s)
      | _, _ =>
          let r := npFFT img
          .ok (r, { s with fft_result := some r, fft_cached := true })

/-- `get_magnitude`: `np.abs` of the stored spectrum; raises when no
spectrum is present. -/
noncomputable def get_magnitude (s : ImageProcessor) : Except PyError RArr :=
  match s.fft_result with
  | none => .error .valueError
  | some spec => .ok spec.cabs

/-- `apply_brightness_contrast`: adjust the image; the cache flag and the
stored spectrum are not touched. -/
def apply_brightness_contrast (s : ImageProcessor) (brightness contrast : ℚ) :
    Except PyError ImageProcessor :=
  match s.image with
  | none => .error .valueError
  | some img => .ok { s with image := some (img.adjust brightness contrast) }

/-- Failure responses of `BackendAPI.mix_images` relevant to the mixing
precondition checks (`{'success': False, 'error': ...}` dictionaries). -/
inductive MixFailure where
  | noImages
  | fftNotComputed
  | shapeMismatch
  | exception

/-- Response of `BackendAPI.mix_images`. -/
inductive MixResponse where
  | failure (e : MixFailure)
  | success (out : RMat) (port : ℕ)

/-- The parts of the `settings` dictionary consumed by `mix_images`, after
`dict.get` defaulting: mode, the four 4-entry weight lists, and the region
parameters. -/
structure MixRequest where
  mode : MixMode
  weightsOf : Component → List ℚ
  region_enabled : Bool
  region_size : ℚ
  regionTypes : Component → Option RegionType
  output_port : ℕ

/-- The loaded slots of the backend: processors whose `image` is present
(`mix_images`'s backward-compatible branch with `active_slots` left
unspecified). -/
def loadedSlots (procs : List ImageProcessor) : List ImageProcessor :=
  procs.filter fun p => p.image.isSome

/-- The FFT shapes collected from the loaded slots (`fft_shapes`). -/
def loadedShapes (procs : List ImageProcessor) : List (List ℕ) :=
  (loadedSlots procs).filterMap fun p => p.fft_result.map CArr.shape

/-- `BackendAPI.mix_images` (with `active_slots` unspecified, the
backward-compatible branch): filter to loaded slots, reject when none are
loaded, when some loaded slot has no computed FFT, or when the FFT shapes
are not all identical (`len(set(fft_shapes)) > 1`) — each *before* any mixer
is constructed or any mixing runs.  On the happy path, build a mixer over
the loaded slots' (2-D, at this stage of the pipeline) spectra, set mode,
the mode's two weight vectors (sliced to the loaded slots), and the region,
then run `compute_ifft` synchronously. -/
noncomputable def mix_images (procs : List ImageProcessor) (req : MixRequest) :
    MixResponse :=
  let loaded := loadedSlots procs
  let active_idx := (List.range procs.length).filter fun i =>
    (((procs.get? i).bind fun p => p.image)).isSome
  if loaded.length = 0 then .failure .noImages
  else if loaded.any fun p => p.fft_result.isNone then .failure .fftNotComputed
  else
    let fft_shapes := loadedShapes procs
    if ¬ fft_shapes.all fun sh => sh = fft_shapes.headD [] then
      .failure .shapeMismatch
    else
      let mixerProcs : List (Option ProcSpec) := loaded.map fun p =>
        match p.fft_result with
        | some (.a2 m n f) => some ⟨m, n, f⟩
        | _ => none
      match mkFourierMixer mixerProcs with
      | .error _ => .failure .exception
      | .ok m0 =>
          let m1 := set_mode m0 req.mode
          let pair : Component × Component :=
            if req.mode = MixMode.magnitude_phase then (.magnitude, .phase)
            else (.real, .imaginary)
          let slice := fun c => active_idx.map fun i => (req.weightsOf c).getD i 0
          match set_weights m1 pair.1 (slice pair.1) with
          | .error _ => .failure .exception
          | .ok m2 =>
              match set_weights m2 pair.2 (slice pair.2) with
              | .error _ => .failure .exception
              | .ok m3 =>
                  let m4 := if req.region_enabled then
                      set_region m3 (some req.region_size) req.regionTypes true
                        none none none none
                    else
                      set_region m3 (some (3 / 10)) (fun _ => some .inner) false
                        none none none none
                  match m4 with
                  | .error _ => .failure .exception
                  | .ok m5 =>
                      match computeIfftRun m5 false false with
                      | ⟨_, .completed out⟩ => .success out req.output_port
                      | _ => .failure .exception

/-- The weight-vector invariant stated by the spec: each stored vector has
one entry per processor and all entries are non-negative. -/
def WeightsInvariant (s : FourierMixer) : Prop :=
  ∀ c, (s.weights c).length = s.num_processors ∧ ∀ w ∈ s.weights c, 0 ≤ w

/-- The all-zero spectrum on any shape. -/
def zeroSpec : ℕ → ℕ → ℂ := fun _ _ => 0

/-- Two active 1×1 spectra with values `1` and `i`, equal unit weights on
magnitude and phase, region disabled: the concrete input separating the two
magnitude/phase mixing paths. -/
noncomputable def c1CexMixer : FourierMixer :=
  { baseMixer [some ⟨1, 1, fun _ _ => 1⟩, some ⟨1, 1, fun _ _ => Complex.I⟩] with
    weights := fun c =>
      match c with
      | .magnitude => [1, 1]
      | .phase => [1, 1]
      | _ => [0, 0] }

/-- A single active spectrum with unit magnitude and phase weights, region
disabled (the situation in which the two mixing paths agree). -/
noncomputable def c1WitMixer : FourierMixer :=
  { baseMixer [some ⟨1, 1, fun _ _ => Complex.I⟩] with
    weights := fun c =>
      match c with
      | .magnitude => [1]
      | .phase => [1]
      | _ => [0] }

/-- A mixer with one active 1×1 spectrum and all-zero weights. -/
noncomputable def c6Mixer : FourierMixer :=
  baseMixer [some ⟨1, 1, zeroSpec⟩]

/-- A freshly constructed mixer over one active spectrum. -/
noncomputable def c9Mixer : FourierMixer :=
  baseMixer [some ⟨1, 1, zeroSpec⟩]

/-- A processor slot holding a grayscale image and a cached spectrum with
constant value 5. -/
noncomputable def c4Proc : ImageProcessor :=
  { image := some (.gray 1 1 fun _ _ => 7)
    color_image := some (.gray 1 1 fun _ _ => 7)
    fft_result := some (.a2 1 1 fun _ _ => 5)
    original_image := some (.gray 1 1 fun _ _ => 7)
    fft_cached := true }

/-- A new all-zero 1×1 image loaded over `c4Proc`. -/
def c4NewImage : PImage := .gray 1 1 fun _ _ => 0

/-- A processor slot holding a 3-channel color image (for the
grayscale-conversion clause) and a cached spectrum. -/
noncomputable def c4WitProc : ImageProcessor :=
  { image := some (.rgb 1 1 3 fun _ _ _ => 1)
    color_image := some (.rgb 1 1 3 fun _ _ _ => 1)
    fft_result := some (.a2 1 1 fun _ _ => 5)
    original_image := some (.rgb 1 1 3 fun _ _ _ => 1)
    fft_cached := true }

/-- A processor slot with an image and an up-to-date cached spectrum. -/
noncomputable def c10Proc : ImageProcessor :=
  { image := some (.gray 1 1 fun _ _ => 100)
    color_image := some (.gray 1 1 fun _ _ => 100)
    fft_result := some (.a2 1 1 fun _ _ => 100)
    original_image := some (.gray 1 1 fun _ _ => 100)
    fft_cached := true }

/-- Two loaded backend slots whose computed spectra have mismatched shapes
(1×1 versus 2×2). -/
noncomputable def c3Procs : List ImageProcessor :=
  [{ image := some (.gray 1 1 fun _ _ => 0)
     color_image := none
     fft_result := some (.a2 1 1 zeroSpec)
     original_image := none
     fft_cached := true },
   { image := some (.gray 2 2 fun _ _ => 0)
     color_image := none
     fft_result := some (.a2 2 2 zeroSpec)
     original_image := none
     fft_cached := true }]

/-- A one-slot mixer used to exercise the weight-setting API. -/
noncomputable def c7Mixer : FourierMixer :=
  baseMixer [some ⟨1, 1, zeroSpec⟩]

/-- A one-spectrum mixer used to exercise the job-run trace. -/
noncomputable def c8Mixer : FourierMixer :=
  baseMixer [some ⟨1, 1, zeroSpec⟩]

/-- A mix request with default-like settings. -/
def c3Req : MixRequest :=
  { mode := .magnitude_phase
    weightsOf := fun _ => [1/2, 1/2, 1/2, 1/2]
    region_enabled := false
    region_size := 3/10
    regionTypes := fun _ => none
    output_port := 0 }

/-- Claim C2 (amended): the frequency mask has values in {0,1}; a disabled
region yields the all-ones mask; and for in-bounds indices the mask equals
the rectangle characterization with extents `max 1 (trunc (dim * frac))` and
center `(trunc (rows * y), trunc (cols * x))` — truncation, not rounding. -/
theorem claim_C2_mask_semantics (s : FourierMixer) (rows cols i j : ℕ)
    (rt : RegionType) (hi : i < rows) (hj : j < cols) :
    (create_frequency_mask s rows cols rt i j = 0 ∨
      create_frequency_mask s rows cols rt i j = 1) ∧
    (s.region_enabled = false → create_frequency_mask s rows cols rt i j = 1) ∧
    create_frequency_mask s rows cols rt i j =
      claimMaskTrunc s.region_enabled s.region_x s.region_y s.region_width
        s.region_height rt rows cols i j := by
  have hi' : (i : ℤ) < (rows : ℤ) := by exact_mod_cast hi
  have hj' : (j : ℤ) < (cols : ℤ) := by exact_mod_cast hj
  have hi0 : (0 : ℤ) ≤ (i : ℤ) := Int.ofNat_nonneg i
  have hj0 : (0 : ℤ) ≤ (j : ℤ) := Int.ofNat_nonneg j
  refine ⟨?_, ?_, ?_⟩
  · simp only [create_frequency_mask]
    split_ifs <;> simp
  · intro h
    simp only [create_frequency_mask, h, if_pos]
  · by_cases he : s.region_enabled = false
    · simp only [create_frequency_mask, claimMaskTrunc, he, if_pos]
    · simp only [create_frequency_mask, claimMaskTrunc, he, if_false]
      split_ifs with h1 h2 <;> first | rfl | omega

/-- Claim C2 witness: the amended mask semantics evaluated on a concrete
mixer, shape and index. -/
theorem claim_C2_witness :
    (create_frequency_mask maskCexMixer 4 4 RegionType.inner 1 2 = 0 ∨
      create_frequency_mask maskCexMixer 4 4 RegionType.inner 1 2 = 1) ∧
    (maskCexMixer.region_enabled = false →
      create_frequency_mask maskCexMixer 4 4 RegionType.inner 1 2 = 1) ∧
    create_frequency_mask maskCexMixer 4 4 RegionType.inner 1 2 =
      claimMaskTrunc maskCexMixer.region_enabled maskCexMixer.region_x
        maskCexMixer.region_y maskCexMixer.region_width
        maskCexMixer.region_height RegionType.inner 4 4 1 2 :=
  claim_C2_mask_semantics maskCexMixer 4 4 1 2 RegionType.inner
    (by decide) (by decide)

/-- Claim C2 counterexample: on a 2×2 shape with width = height = 0.9 and
center (0.5, 0.5), the source mask (built with Python `int()` truncation)
differs from the claim's rounded formula: the code's inner mask is empty
(all zeros) while the claim's formula fills the whole array. -/
theorem claim_C2_counterexample :
    create_frequency_mask maskCexMixer 2 2 RegionType.inner 0 0 = 0 ∧
    claimMaskRound true (1/2) (1/2) (9/10) (9/10) RegionType.inner 2 2 0 0 = 1 ∧
    create_frequency_mask maskCexMixer 2 2 RegionType.inner 0 0 ≠
      claimMaskRound maskCexMixer.region_enabled maskCexMixer.region_x
        maskCexMixer.region_y maskCexMixer.region_width
        maskCexMixer.region_height RegionType.inner 2 2 0 0 := by
  refine ⟨?_, ?_, ?_⟩
  · norm_num [create_frequency_mask, maskCexMixer, baseMixer, pyInt]
  · norm_num [claimMaskRound, round_eq]
  · norm_num [create_frequency_mask, maskCexMixer, baseMixer, pyInt,
      claimMaskRound, round_eq]

/-- Claim C7: setting a weight vector fails exactly when the length differs
from the processor (active-slot) count or some entry is negative; on success
the stored vector equals the given one; the length/non-negativity invariant
holds at construction and is preserved by successful updates. -/
theorem claim_C7_set_weights_validation (s : FourierMixer) (c : Component)
    (ws : List ℚ) :
    ((∃ e, set_weights s c ws = .error e) ↔
      (ws.length ≠ s.num_processors ∨ ∃ w ∈ ws, w < 0)) ∧
    (∀ s', set_weights s c ws = .ok s' → s'.weights c = ws) ∧
    (∀ procs s0, mkFourierMixer procs = .ok s0 → WeightsInvariant s0) ∧
    (∀ s', set_weights s c ws = .ok s' → WeightsInvariant s →
      WeightsInvariant s') := by
  refine ⟨?_, ?_, ?_, ?_⟩
  · unfold set_weights
    by_cases hlen : ws.length ≠ s.num_processors
    · simp [hlen]
    · by_cases hneg : ws.any (fun w => decide (w < 0)) = true
      · rw [if_neg hlen, if_pos hneg]
        constructor
        · intro _
          right
          simpa [List.any_eq_true] using hneg
        · intro _
          exact ⟨.valueError, rfl⟩
      · rw [if_neg hlen, if_neg hneg]
        constructor
        · rintro ⟨e, he⟩
          exact absurd he (by simp)
        · rintro (h | ⟨w, hw, hwneg⟩)
          · exact (hlen h).elim
          · exact absurd (by simp [List.any_eq_true]; exact ⟨w, hw, hwneg⟩) hneg
  · intro s' hok
    unfold set_weights at hok
    by_cases hlen : ws.length ≠ s.num_processors
    · rw [if_pos hlen] at hok
      exact absurd hok (by simp)
    · by_cases hneg : ws.any (fun w => decide (w < 0)) = true
      · rw [if_neg hlen, if_pos hneg] at hok
        exact absurd hok (by simp)
      · rw [if_neg hlen, if_neg hneg] at hok
        cases hok
        simp [Function.update_same]
  · intro procs s0 hmk
    unfold mkFourierMixer at hmk
    split at hmk
    · exact absurd hmk (by simp)
    · cases hmk
      intro c0
      constructor
      · simp [baseMixer]
      · intro w hw
        simp only [baseMixer] at hw
        rw [List.eq_of_mem_replicate hw]
  · intro s' hok hinv
    unfold set_weights at hok
    by_cases hlen : ws.length ≠ s.num_processors
    · rw [if_pos hlen] at hok
      exact absurd hok (by simp)
    · by_cases hneg : ws.any (fun w => decide (w < 0)) = true
      · rw [if_neg hlen, if_pos hneg] at hok
        exact absurd hok (by simp)
      · rw [if_neg hlen, if_neg hneg] at hok
        cases hok
        intro c0
        by_cases hc : c0 = c
        · subst hc
          refine ⟨by simpa using (by omega : ws.length = s.num_processors), ?_⟩
          intro w hw
          simp only [Function.update_same] at hw
          by_contra hlt
          push_neg at hlt
          exact absurd (by simp [List.any_eq_true]; exact ⟨w, hw, hlt⟩) hneg
        · have h0 := hinv c0
          simpa [Function.update_noteq hc] using h0

/-- Claim C7 witness: a two-entry vector is rejected on a one-slot mixer. -/
theorem claim_C7_witness :
    ∃ e, set_weights c7Mixer Component.magnitude [2, 2] = .error e :=
  ((claim_C7_set_weights_validation c7Mixer .magnitude [2, 2]).1).mpr
    (.inl (by decide))

/-- Claim C6: with at least one active spectrum and a zero sum of the
mode-relevant weights, `mix_components` returns (without raising) the
all-zero complex spectrum of the common shape. -/
theorem claim_C6_zero_weight_sum (s : FourierMixer) (p : ProcSpec)
    (rest : List ProcSpec)
    (hactive : s.processors.filterMap id = p :: rest)
    (hsum : (if s.mode = MixMode.magnitude_phase then
        s.weights .magnitude ++ s.weights .phase
      else s.weights .real ++ s.weights .imaginary).sum = 0) :
    mix_components s = .ok ⟨p.rows, p.cols, fun _ _ => 0⟩ := by
  unfold mix_components
  rw [hactive]
  simp [hsum]

/-- Claim C6 witness: a one-spectrum mixer with all-zero weights yields the
all-zero 1×1 spectrum. -/
theorem claim_C6_witness : mix_components c6Mixer = .ok ⟨1, 1, fun _ _ => 0⟩ :=
  claim_C6_zero_weight_sum c6Mixer ⟨1, 1, zeroSpec⟩ [] (by rfl)
    (by simp [c6Mixer, baseMixer])

lemma setRegionDims_region_type (s : FourierMixer) (size width height : Option ℚ)
    (s' : FourierMixer) (h : setRegionDims s size width height = .ok s') :
    s'.region_type = s.region_type := by
  unfold setRegionDims at h
  repeat' split at h
  all_goals first | (cases h; rfl) | exact absurd h (by simp)

lemma setRegionX_region_type (s : FourierMixer) (x : Option ℚ)
    (s' : FourierMixer) (h : setRegionX s x = .ok s') :
    s'.region_type = s.region_type := by
  unfold setRegionX at h
  repeat' split at h
  all_goals first | (cases h; rfl) | exact absurd h (by simp)

lemma setRegionY_region_type (s : FourierMixer) (y : Option ℚ)
    (s' : FourierMixer) (h : setRegionY s y = .ok s') :
    s'.region_type = s.region_type := by
  unfold setRegionY at h
  repeat' split at h
  all_goals first | (cases h; rfl) | exact absurd h (by simp)

lemma set_region_region_type (s : FourierMixer) (size : Option ℚ)
    (rtArg : Component → Option RegionType) (enabled : Bool)
    (x y width height : Option ℚ) (s' : FourierMixer)
    (h : set_region s size rtArg enabled x y width height = .ok s') :
    s'.region_type = s.region_type := by
  unfold set_region at h
  cases h1 : setRegionDims s size width height with
  | error e => rw [h1] at h; exact absurd h (by simp [Except.bind])
  | ok s1 =>
    rw [h1] at h
    simp only [Except.bind] at h
    cases h2 : setRegionX s1 x with
    | error e => rw [h2] at h; exact absurd h (by simp)
    | ok s2 =>
      rw [h2] at h
      simp only [] at h
      cases h3 : setRegionY s2 y with
      | error e => rw [h3] at h; exact absurd h (by simp)
      | ok s3 =>
        rw [h3] at h
        simp only [Except.ok.injEq] at h
        subst h
        rw [show ({ s3 with
          per_component_region := fun c => (rtArg c).getD (s3.per_component_region c),
          region_enabled := enabled } : FourierMixer).region_type = s3.region_type from rfl]
        rw [setRegionY_region_type s2 y s3 h3, setRegionX_region_type s1 x s2 h2,
          setRegionDims_region_type s size width height s1 h1]

lemma set_weights_region_type (s : FourierMixer) (c : Component) (ws : List ℚ)
    (s' : FourierMixer) (h : set_weights s c ws = .ok s') :
    s'.region_type = s.region_type := by
  unfold set_weights at h
  repeat' split at h
  all_goals first | (cases h; rfl) | exact absurd h (by simp)

lemma set_region_from_coordinates_region_type (s : FourierMixer)
    (x1 y1 x2 y2 : ℚ) (rt : RegionType) (s' : FourierMixer)
    (h : set_region_from_coordinates s x1 y1 x2 y2 rt = .ok s') :
    s'.region_type = s.region_type := by
  unfold set_region_from_coordinates at h
  split at h
  · cases h; rfl
  · exact set_region_region_type _ _ _ _ _ _ _ _ _ h

lemma set_output_port_region_type (s : FourierMixer) (port : ℕ)
    (s' : FourierMixer) (h : set_output_port s port = .ok s') :
    s'.region_type = s.region_type := by
  unfold set_output_port at h
  repeat' split at h
  all_goals first | (cases h; rfl) | exact absurd h (by simp)

lemma reachable_region_type_none (s : FourierMixer) (hs : Reachable s) :
    s.region_type = none := by
  induction hs with
  | init procs s h =>
    unfold mkFourierMixer at h
    split at h
    · exact absurd h (by simp)
    · cases h; rfl
  | mode s m _ ih => simpa [set_mode] using ih
  | setw s s' c ws _ h ih => rw [set_weights_region_type s c ws s' h]; exact ih
  | region s s' size rtArg enabled x y width height _ h ih =>
    rw [set_region_region_type s size rtArg enabled x y width height s' h]
    exact ih
  | regionCoords s s' x1 y1 x2 y2 rt _ h ih =>
    rw [set_region_from_coordinates_region_type s x1 y1 x2 y2 rt s' h]
    exact ih
  | outputPort s s' port _ h ih =>
    rw [set_output_port_region_type s port s' h]
    exact ih
  | cancel s _ ih =>
    unfold cancel_operation
    split <;> simpa using ih

/-- Claim C9: in every reachable mixer state, `region_type` was never
assigned, so `get_region_rectangle_bounds` raises `AttributeError` whenever
some processor has a computed spectrum, and returns `None` (without error)
exactly when none has. -/
theorem claim_C9_region_bounds_attribute_error (s : FourierMixer) (hs : Reachable s) :
    ((s.processors.filterMap id).head? = none →
      get_region_rectangle_bounds s = .ok none) ∧
    (∀ p, (s.processors.filterMap id).head? = some p →
      get_region_rectangle_bounds s = .error .attributeError) := by
  have hrt := reachable_region_type_none s hs
  constructor
  · intro h
    unfold get_region_rectangle_bounds
    rw [h]
  · intro p hp
    unfold get_region_rectangle_bounds
    rw [hp]
    simp [hrt]

/-- Claim C9 witness: a freshly constructed mixer over one active spectrum
raises. -/
theorem claim_C9_witness :
    get_region_rectangle_bounds c9Mixer = .error .attributeError :=
  (claim_C9_region_bounds_attribute_error c9Mixer (.init [some ⟨1, 1, zeroSpec⟩] c9Mixer rfl)).2
    ⟨1, 1, zeroSpec⟩ rfl

/-- Claim C8: within one `compute_ifft` run the progress trace is
non-decreasing, takes only the values 0, 10, 50, 70, 90, 100, follows one of
the prefixes `[0,10]`, `[0,10,50,70]`, `[0,10,50,70,90,100]`, and a result
is reported exactly when neither cancellation checkpoint fired and mixing
succeeded. -/
theorem claim_C8_progress_trace (s : FourierMixer) (c1 c2 : Bool) :
    (computeIfftRun s c1 c2).trace.Chain' (· ≤ ·) ∧
    (∀ q ∈ (computeIfftRun s c1 c2).trace,
      q = 0 ∨ q = 10 ∨ q = 50 ∨ q = 70 ∨ q = 90 ∨ q = 100) ∧
    ((computeIfftRun s c1 c2).trace = [0, 10] ∨
      (computeIfftRun s c1 c2).trace = [0, 10, 50, 70] ∨
      (computeIfftRun s c1 c2).trace = [0, 10, 50, 70, 90, 100]) ∧
    ((∃ out, (computeIfftRun s c1 c2).outcome = .completed out) ↔
      (c1 = false ∧ c2 = false ∧ ∃ m, mix_components s = .ok m)) := by
  cases hm : mix_components s with
  | error e =>
    cases c1 <;> cases c2 <;>
      refine ⟨by simp [computeIfftRun, hm], ?_, ?_, ?_⟩ <;>
      simp [computeIfftRun, hm]
  | ok m =>
    cases c1 <;> cases c2 <;>
      refine ⟨by simp [computeIfftRun, hm], ?_, ?_, ?_⟩ <;>
      simp [computeIfftRun, hm]

/-- Claim C8 witness: a run cancelled at the first checkpoint follows one of
the admissible traces. -/
theorem claim_C8_witness :
    (computeIfftRun c8Mixer true false).trace = [0, 10] ∨
    (computeIfftRun c8Mixer true false).trace = [0, 10, 50, 70] ∨
    (computeIfftRun c8Mixer true false).trace = [0, 10, 50, 70, 90, 100] :=
  (claim_C8_progress_trace c8Mixer true false).2.2.1

/-- Claim C10: a brightness/contrast adjustment replaces the image but
leaves both the cache flag and the stored spectrum untouched, so a
subsequent non-forced `compute_fft` returns the stale pre-adjustment
spectrum. -/
theorem claim_C10_stale_spectrum_after_adjust (s : ImageProcessor) (b c : ℚ)
    (img : PImage) (S : CArr) (himg : s.image = some img)
    (hc : s.fft_cached = true) (hS : s.fft_result = some S) :
    apply_brightness_contrast s b c =
      .ok { s with image := some (img.adjust b c) } ∧
    ({ s with image := some (img.adjust b c) } : ImageProcessor).fft_cached = true ∧
    ({ s with image := some (img.adjust b c) } : ImageProcessor).fft_result = some S ∧
    compute_fft { s with image := some (img.adjust b c) } false =
      .ok (S, { s with image := some (img.adjust b c) }) := by
  refine ⟨?_, by simpa using hc, by simpa using hS, ?_⟩
  · unfold apply_brightness_contrast
    rw [himg]
  · unfold compute_fft
    simp [hc, hS]

/-- Claim C10 witness: a concrete slot with a cached spectrum keeps serving
it after an adjustment. -/
theorem claim_C10_witness :
    apply_brightness_contrast c10Proc 10 2 =
      .ok { c10Proc with
        image := some ((PImage.gray 1 1 fun _ _ => 100).adjust 10 2) } ∧
    ({ c10Proc with
        image := some ((PImage.gray 1 1 fun _ _ => 100).adjust 10 2) } :
      ImageProcessor).fft_cached = true ∧
    ({ c10Proc with
        image := some ((PImage.gray 1 1 fun _ _ => 100).adjust 10 2) } :
      ImageProcessor).fft_result = some (.a2 1 1 fun _ _ => 100) ∧
    compute_fft { c10Proc with
        image := some ((PImage.gray 1 1 fun _ _ => 100).adjust 10 2) } false =
      .ok ((.a2 1 1 fun _ _ => 100), { c10Proc with
        image := some ((PImage.gray 1 1 fun _ _ => 100).adjust 10 2) }) :=
  claim_C10_stale_spectrum_after_adjust c10Proc 10 2
    (.gray 1 1 fun _ _ => 100) (.a2 1 1 fun _ _ => 100) rfl rfl rfl

/-- Claim C4 counterexample: after `load_image` replaces the image, the slot
still holds the previous spectrum (`fft_result` is not cleared), the
magnitude projection still returns the old image's spectrum, and that
retained spectrum is not the new image's transform. -/
theorem claim_C4_counterexample :
    (load_image c4Proc c4NewImage).fft_result = some (.a2 1 1 fun _ _ => 5) ∧
    get_magnitude (load_image c4Proc c4NewImage) =
      .ok ((CArr.a2 1 1 fun _ _ => 5).cabs) ∧
    (load_image c4Proc c4NewImage).fft_result ≠ some (npFFT c4NewImage) := by
  refine ⟨rfl, rfl, ?_⟩
  intro h
  simp only [load_image, c4Proc, Option.some.injEq] at h
  have h00 := congrArg (fun a => match a with | CArr.a2 _ _ f => f 0 0 | _ => 0) h
  simp only [npFFT, c4NewImage, fftshift2, dft2] at h00
  simp [Finset.sum_range_one] at h00

/-- Claim C4 (amended): a new load clears only the cache flag (so the next
spectrum computation recomputes from the new image) but retains the stored
spectrum, while resize and grayscale conversion clear both the flag and the
stored spectrum. -/
theorem claim_C4_invalidations (s : ImageProcessor) (img : PImage)
    (resample : PImage → ℕ × ℕ → PImage) (target : ℕ × ℕ) :
    ((load_image s img).fft_cached = false ∧
     (load_image s img).fft_result = s.fft_result ∧
     compute_fft (load_image s img) false =
       .ok (npFFT img,
         { load_image s img with fft_result := some (npFFT img),
                                 fft_cached := true })) ∧
    (∀ i0, s.image = some i0 →
      ∃ s', resize_image resample s target = .ok s' ∧
        s'.fft_cached = false ∧ s'.fft_result = none) ∧
    (∀ m n ch f, s.image = some (.rgb m n ch f) → 3 ≤ ch →
      ∃ s', convert_to_grayscale s = .ok s' ∧
        s'.fft_cached = false ∧ s'.fft_result = none) := by
  refine ⟨⟨rfl, rfl, ?_⟩, ?_, ?_⟩
  · unfold compute_fft
    cases hres : s.fft_result <;> simp [load_image, hres]
  · intro i0 h0
    unfold resize_image
    rw [h0]
    exact ⟨_, rfl, rfl, rfl⟩
  · intro m n ch f h0 hch
    refine ⟨{ s with
        image := some (.gray m n fun i j =>
          f i j 0 * (299 / 1000) + f i j 1 * (587 / 1000) + f i j 2 * (114 / 1000))
        fft_cached := false
        fft_result := none }, ?_, rfl, rfl⟩
    unfold convert_to_grayscale
    rw [h0]
    simp [hch]

/-- Claim C4 witness: grayscale conversion of a concrete colored slot
clears the cache flag and the stored spectrum. -/
theorem claim_C4_witness :
    ∃ s', convert_to_grayscale c4WitProc = .ok s' ∧
      s'.fft_cached = false ∧ s'.fft_result = none :=
  (claim_C4_invalidations c4WitProc (.gray 1 1 fun _ _ => 3)
      (fun i _ => i) (2, 2)).2.2 1 1 3 (fun _ _ _ => 1) rfl (by decide)

/-- Claim C3: when the loaded (active) slots exist, all have computed
spectra, and their shapes are not all identical, `mix_images` returns the
shape-mismatch failure — the check runs before any mixer is constructed or
any mixing is performed. -/
theorem claim_C3_shape_mismatch_rejected (procs : List ImageProcessor)
    (req : MixRequest) (h1 : (loadedSlots procs).length ≠ 0)
    (h2 : ∀ p ∈ loadedSlots procs, p.fft_result.isSome)
    (h3 : ¬ (loadedShapes procs).all fun sh => sh = (loadedShapes procs).headD []) :
    mix_images procs req = .failure .shapeMismatch := by
  simp only [mix_images]
  rw [if_neg h1]
  rw [if_neg ?hany]
  case hany =>
    intro hc
    rw [List.any_eq_true] at hc
    obtain ⟨p, hp, hnone⟩ := hc
    have hs := h2 p hp
    simp only [Option.isNone_iff_eq_none] at hnone
    rw [hnone] at hs
    simp at hs
  rw [if_pos h3]

/-- Claim C3 witness: two loaded slots with 1×1 and 2×2 spectra are
rejected with the shape-mismatch error. -/
theorem claim_C3_witness : mix_images c3Procs c3Req = .failure .shapeMismatch :=
  claim_C3_shape_mismatch_rejected c3Procs c3Req (by decide) (by decide)
    (by decide)

lemma gridMin_le (m n : ℕ) (y : ℕ → ℕ → ℝ) (k l : ℕ) (hk : k < m) (hl : l < n) :
    gridMin m n y ≤ y k l := by
  have hmem : (k, l) ∈ Finset.range m ×ˢ Finset.range n :=
    Finset.mem_product.mpr ⟨Finset.mem_range.mpr hk, Finset.mem_range.mpr hl⟩
  unfold gridMin
  rw [dif_pos ⟨(k, l), hmem⟩]
  exact Finset.inf'_le (fun p => y p.1 p.2) hmem

lemma le_gridMax (m n : ℕ) (y : ℕ → ℕ → ℝ) (k l : ℕ) (hk : k < m) (hl : l < n) :
    y k l ≤ gridMax m n y := by
  have hmem : (k, l) ∈ Finset.range m ×ˢ Finset.range n :=
    Finset.mem_product.mpr ⟨Finset.mem_range.mpr hk, Finset.mem_range.mpr hl⟩
  unfold gridMax
  rw [dif_pos ⟨(k, l), hmem⟩]
  exact Finset.le_sup' (fun p => y p.1 p.2) hmem

lemma normalizeOutput_mem (m n : ℕ) (Y : ℕ → ℕ → ℝ) (k l : ℕ)
    (hk : k < m) (hl : l < n) :
    normalizeOutput m n Y k l ∈ Set.Icc (0 : ℝ) 255 := by
  simp only [normalizeOutput]
  have h0 : 0 ≤ Y k l - gridMin m n Y :=
    sub_nonneg.mpr (gridMin_le m n Y k l hk hl)
  have hle : Y k l - gridMin m n Y ≤
      gridMax m n fun a b => Y a b - gridMin m n Y :=
    le_gridMax m n (fun a b => Y a b - gridMin m n Y) k l hk hl
  by_cases hpos : 0 < gridMax m n fun a b => Y a b - gridMin m n Y
  · rw [if_pos hpos]
    constructor
    · exact mul_nonneg (div_nonneg h0 (le_of_lt hpos)) (by norm_num)
    · calc (Y k l - gridMin m n Y) /
          (gridMax m n fun a b => Y a b - gridMin m n Y) * 255
          ≤ 1 * 255 := by
            exact mul_le_mul_of_nonneg_right ((div_le_one hpos).mpr hle)
              (by norm_num)
        _ = 255 := one_mul 255
  · rw [if_neg hpos]
    have hz : Y k l - gridMin m n Y ≤ 0 := le_trans hle (not_lt.mp hpos)
    exact ⟨h0, le_trans hz (by norm_num)⟩

/-- Claim C5: the inverse transform pipeline is the composite of the
un-shift, the inverse DFT, the real-part projection and the normalization,
and every entry of its output lies in `[0, 255]`; as a function it is
deterministic and pure by construction. -/
theorem claim_C5_pipeline_bounded (m n : ℕ) (F : ℕ → ℕ → ℂ) (k l : ℕ)
    (hk : k < m) (hl : l < n) :
    reconstructPipeline m n F =
      normalizeOutput m n (fun p q => (idft2 m n (ifftshift2 m n F) p q).re) ∧
    reconstructPipeline m n F k l ∈ Set.Icc (0 : ℝ) 255 :=
  ⟨rfl, normalizeOutput_mem m n _ k l hk hl⟩

/-- Claim C5 witness: the pipeline output on the 1×1 zero spectrum is inside
the display range. -/
theorem claim_C5_witness :
    reconstructPipeline 1 1 zeroSpec =
      normalizeOutput 1 1 (fun p q => (idft2 1 1 (ifftshift2 1 1 zeroSpec) p q).re) ∧
    reconstructPipeline 1 1 zeroSpec 0 0 ∈ Set.Icc (0 : ℝ) 255 :=
  claim_C5_pipeline_bounded 1 1 zeroSpec 0 0 (by decide) (by decide)

lemma c1_shortcut_eval :
    mixMagPhaseShortcut c1CexMixer 1 1 0 0 = 1 + Complex.I := by
  norm_num [mixMagPhaseShortcut, c1CexMixer, baseMixer, weightedSpecSum,
    create_frequency_mask]

lemma c1_general_eval :
    mixMagPhaseGeneral c1CexMixer 1 1 0 0 = 2 * Complex.I := by
  norm_num [mixMagPhaseGeneral, c1CexMixer, baseMixer, weightedProjSum,
    create_frequency_mask, Complex.arg_one, Complex.arg_I, Complex.abs_I]
  rw [mul_comm, Complex.exp_mul_I]
  rw [show (↑Real.pi / 2 : ℂ) = ((Real.pi / 2 : ℝ) : ℂ) by push_cast; ring]
  rw [← Complex.ofReal_cos, ← Complex.ofReal_sin, Real.cos_pi_div_two,
    Real.sin_pi_div_two]
  simp

/-- Claim C1 counterexample: with two active 1×1 spectra `1` and `i` and
equal unit weight vectors (which satisfy the shortcut's `allclose` trigger),
the direct complex-sum path yields `1 + i` while the separate
magnitude/phase path yields `2i`; their distance `√2` far exceeds `1e-9`
of `|2i|`, so the two paths do not agree within the claimed tolerance. -/
theorem claim_C1_counterexample :
    allclose (c1CexMixer.weights .magnitude) (c1CexMixer.weights .phase) = true ∧
    mixMagPhaseShortcut c1CexMixer 1 1 0 0 = 1 + Complex.I ∧
    mixMagPhaseGeneral c1CexMixer 1 1 0 0 = 2 * Complex.I ∧
    ¬ Complex.abs (mixMagPhaseShortcut c1CexMixer 1 1 0 0 -
        mixMagPhaseGeneral c1CexMixer 1 1 0 0) ≤
      1 / 10 ^ 9 * Complex.abs (mixMagPhaseGeneral c1CexMixer 1 1 0 0) := by
  refine ⟨by norm_num [allclose, c1CexMixer, baseMixer], c1_shortcut_eval,
    c1_general_eval, ?_⟩
  rw [c1_shortcut_eval, c1_general_eval]
  intro hc
  have habs2 : Complex.abs (2 * Complex.I) = 2 := by
    rw [map_mul]
    simp [Complex.abs_I, Complex.abs_two]
  rw [habs2] at hc
  have hd : (1 + Complex.I - 2 * Complex.I) = 1 - Complex.I := by ring
  rw [hd] at hc
  have hsq : (Complex.abs (1 - Complex.I))^2 = 2 := by
    rw [Complex.sq_abs]
    simp [Complex.normSq_apply]
    norm_num
  have hnn : (0:ℝ) ≤ Complex.abs (1 - Complex.I) := Complex.abs.nonneg _
  nlinarith [hc, hsq, hnn]

/-- Claim C1 (amended): under equal weight vectors the code takes the
shortcut path, but the shortcut and the general path do not agree in
general; they do agree exactly in the special case of a single active
spectrum with weight 1 and the region disabled. -/
theorem claim_C1_equal_weight_paths (s : FourierMixer) (p : ProcSpec)
    (hp : s.processors = [some p])
    (hmag : s.weights .magnitude = [1]) (hph : s.weights .phase = [1])
    (hreg : s.region_enabled = false) (rows cols k l : ℕ) :
    mix_magnitude_phase s rows cols = mixMagPhaseShortcut s rows cols ∧
    mixMagPhaseShortcut s rows cols k l = mixMagPhaseGeneral s rows cols k l := by
  constructor
  · unfold mix_magnitude_phase
    rw [hmag, hph]
    rw [if_pos (by norm_num [allclose])]
  · unfold mixMagPhaseShortcut mixMagPhaseGeneral
    rw [hp, hmag, hph]
    simp [weightedSpecSum, weightedProjSum, create_frequency_mask, hreg]
    rw [mul_comm Complex.I]
    exact (Complex.abs_mul_exp_arg_mul_I (p.F k l)).symm

/-- Claim C1 witness: the single-spectrum unit-weight agreement on a
concrete mixer. -/
theorem claim_C1_witness :
    mix_magnitude_phase c1WitMixer 1 1 = mixMagPhaseShortcut c1WitMixer 1 1 ∧
    mixMagPhaseShortcut c1WitMixer 1 1 0 0 =
      mixMagPhaseGeneral c1WitMixer 1 1 0 0 :=
  claim_C1_equal_weight_paths c1WitMixer ⟨1, 1, fun _ _ => Complex.I⟩
    rfl rfl rfl rfl 1 1 0 0

end FtMixer
